import Mathlib

/-!
Verification development for the pynx587e panel interface
(src/pynx587e/controller.py).

The Python module is shallowly embedded: each relevant method of
`PanelInterface` becomes a pure Lean function over explicit state.
Python runtime failures (UnboundLocalError, TypeError, IndexError,
KeyError, a non-terminating loop) are made explicit as constructors of
the result types, so that theorems can speak about them.

`flexdevice.FlexDevice` is imported by controller.py but its source is
not part of this repository's sources; it is modelled from the
specification (see `FlexDevice` below).
-/

/-- Python values that appear in the controller's data flow: the `-1`
unknown sentinel and timestamps are ints, decoded attribute values are
bools, and `getStatus`'s invalid marker is the string `"-1"`. -/
inductive PyVal where
  | int (n : Int)
  | bool (b : Bool)
  | str (s : String)
deriving DecidableEq, Repr

/-- Python numeric coercion used by `==`: `True == 1`, `False == 0`. -/
def pyToNum : PyVal → Option Int
  | .int n => some n
  | .bool b => some (if b then 1 else 0)
  | .str _ => none

/-- Python `==` on the values above: numeric cross-type comparison
between ints and bools (so `-1 != True` and `-1 != False`), string
equality between strings, `False` across kinds. -/
def pyEq (a b : PyVal) : Bool :=
  match pyToNum a, pyToNum b with
  | some m, some n => m == n
  | _, _ =>
    match a, b with
    | .str s, .str t => s == t
    | _, _ => false

/-- Modelled from the spec: `flexdevice.FlexDevice` is not under src/
(controller.py imports it).  Per the specification a device "Holds a
mapping from attribute name → (boolean value, last-change timestamp)"
with "Values ... three-valued at conception: unknown (sentinel), true,
false", and controller.py's own docstrings use `-1` as that sentinel.
We model the mapping as an association list holding, for each attribute
`e`, the keys `e` (value) and `e ++ "_time"` (timestamp), both
initialised to the sentinel `-1`. -/
abbrev FlexDevice := List (String × PyVal)

/-- Modelled from the spec: fresh device, every attribute and its
timestamp at the unknown sentinel `-1`. -/
def fdInit (elements : List String) : FlexDevice :=
  elements.flatMap (fun e => [(e, PyVal.int (-1)), (e ++ "_time", PyVal.int (-1))])

/-- Modelled from the spec: `get` returns the stored entry for a key
(the sentinel if the key is absent, which never happens for the keys the
controller uses). -/
def fdGet (d : FlexDevice) (k : String) : PyVal :=
  match d.find? (fun p => p.1 == k) with
  | some p => p.2
  | none => PyVal.int (-1)

/-- Modelled from the spec: `set` stores the boolean value under `k` and
updates the paired timestamp `k ++ "_time"` — "every attribute always
has a paired value+timestamp, never one without the other". -/
def fdSet (d : FlexDevice) (k : String) (v : Bool) (now : Int) : FlexDevice :=
  d.map (fun p =>
    if p.1 == k then (p.1, PyVal.bool v)
    else if p.1 == k ++ "_time" then (p.1, PyVal.int now)
    else p)

/-- `_ZONE_ELEMENTS` (controller.py lines 44-54). -/
def ZONE_ELEMENTS : List String :=
  ["fault", "tamper", "trouble", "bypass", "alarmMemory",
   "inhibit", "lowBattery", "lost", "memoryBypass"]

/-- `_PARTITION_ELEMENTS` (controller.py lines 62-71). -/
def PARTITION_ELEMENTS : List String :=
  ["ready", "armed", "stay", "chime", "entryDelay",
   "exitPeriod", "previousAlarm", "siren"]

/-- `_NX_MESSAGE_TYPES` (controller.py lines 76-79), an insertion-ordered
dict: "ZN" before "PA". -/
def NX_TYPES : List (String × List String) :=
  [("ZN", ZONE_ELEMENTS), ("PA", PARTITION_ELEMENTS)]

/-- `START_UP_OPTIONS` (controller.py line 102). -/
def START_UP_OPTIONS : String := "taliPZn"

/-- `int(...)` on a digit string. -/
def natOfDigits (ds : List Char) : Nat :=
  ds.foldl (fun n c => 10 * n + (c.toNat - '0'.toNat)) 0

/-- Python list indexing `l[i]`: a negative index counts from the end;
`none` is an `IndexError`. -/
def pyIndex {α : Type} (l : List α) (i : Int) : Option α :=
  let j := if i < 0 then (l.length : Int) + i else i
  if 0 ≤ j ∧ j < (l.length : Int) then l.get? j.toNat else none

/-- Functional counterpart of mutating the object at Python index `i`
(controller.py mutates `deviceBank[key][id-1]` in place). -/
def pyUpdate {α : Type} (l : List α) (i : Int) (a : α) : List α :=
  let j := if i < 0 then (l.length : Int) + i else i
  if 0 ≤ j ∧ j < (l.length : Int) then l.set j.toNat a else l

/-- The `event` dict built at controller.py lines 231-236. -/
structure PEvent where
  event : String
  id : Int
  tag : String
  value : Bool
  time : PyVal
deriving DecidableEq, Repr

/-- One iteration of the merge loop of `_process_event`
(controller.py lines 211-243): fetch the previous attribute value from
`deviceBank[key][id-1]`, compare with the incoming value under Python
`==`/`!=`, update the device and emit the event unless the previous
value was the `-1` sentinel (`skip_callback`).  `none` is the
`IndexError` raised when the bank index is invalid. -/
def stepAttr (ety : String) (id : Int) (now : Int)
    (devs : List FlexDevice) (evs : List PEvent)
    (key : String) (v : Bool) : Option (List FlexDevice × List PEvent) :=
  match pyIndex devs (id - 1) with
  | none => none
  | some dev =>
    if pyEq (fdGet dev key) (PyVal.bool v) then some (devs, evs)
    else
      let skip := pyEq (fdGet dev key) (PyVal.int (-1))
      let dev' := fdSet dev key v now
      let devs' := pyUpdate devs (id - 1) dev'
      let ev : PEvent := ⟨ety, id, key, v, fdGet dev' (key ++ "_time")⟩
      some (devs', if skip then evs else evs ++ [ev])

/-- The `for msg_key, msg_value in NXMessage.items()` loop
(controller.py lines 211-243), folded over the decoded message. -/
def mergeMsg (ety : String) (id : Int) (now : Int) :
    List FlexDevice → List PEvent → List (String × Bool) →
    Option (List FlexDevice × List PEvent)
  | devs, evs, [] => some (devs, evs)
  | devs, evs, (k, v) :: rest =>
    match stepAttr ety id now devs evs k v with
    | none => none
    | some (d1, e1) => mergeMsg ety id now d1 e1 rest

/-- The `NXMessage` construction (controller.py lines 191-193):
`for i, v in enumerate(region): NXMessage[elements[i]] = v.isupper()`.
`none` is the `IndexError` raised when the region is longer than the
element list; the dict's insertion order is the positional order. -/
def buildMsg : List String → List Char → Option (List (String × Bool))
  | _, [] => some []
  | [], _ :: _ => none
  | e :: es, v :: vs =>
    match buildMsg es vs with
    | none => none
    | some m => some ((e, v.isUpper) :: m)

/-- Outcome of the decoding half of `_process_event`. -/
inductive DecodeResult where
  | ignored
  | nameError
  | hang
  | indexError
  | decoded (tag : String) (elems : List String) (id : Nat) (msg : List (String × Bool))
deriving DecidableEq, Repr

/-- The decoding half of `_process_event` (controller.py lines 162-209),
in the source's own order of failure.

The tag comparison is `raw_event[0:2] == key` for each key of
`_NX_MESSAGE_TYPES` in dict order.  The `while
raw_event[2:num_char].isnumeric()` loop (lines 172-182) runs first: it
consumes the maximal digit run starting at offset 2, leaving `id` as the
int of that run and `id_start_char = 2 + (length of the run)`.  If the
digit run extends to the end of a *nonempty* tail, the slice
`raw_event[2:num_char]` clamps to the same all-digit string for every
larger `num_char`, so the loop never exits (`.hang`).  If there is no
digit at offset 2 the loop body never runs, leaving `id` unassigned and
`id_start_char = 2`.

`NXMessage` is built next (lines 191-193) from the attribute region
`raw_event[id_start_char : len(raw_event)-1]` — the characters after
the digit run up to but excluding the final one; `elements[i]` raises
`IndexError` there (`.indexError`) when the region is longer than the
element list.

Only after that is `id` referenced, at `id <= self._NX_MAX_DEVICES[...]`
(line 209): when the digit run was empty this raises `UnboundLocalError`
(`.nameError`). -/
def decodeNX (chars : List Char) : DecodeResult :=
  match NX_TYPES.find? (fun p => String.mk (chars.take 2) == p.1) with
  | none => .ignored
  | some (tag, elems) =>
    if ((chars.drop 2).takeWhile Char.isDigit).length == (chars.drop 2).length
        && !(chars.drop 2).isEmpty then
      .hang
    else
      match buildMsg elems ((chars.take (chars.length - 1)).drop
          (2 + ((chars.drop 2).takeWhile Char.isDigit).length)) with
      | none => .indexError
      | some msg =>
        if ((chars.drop 2).takeWhile Char.isDigit).isEmpty then .nameError
        else .decoded tag elems (natOfDigits ((chars.drop 2).takeWhile Char.isDigit)) msg

/-- The mutable state `_process_event` and `getStatus` operate on:
`_NX_MAX_DEVICES` (controller.py lines 83-86) and `deviceBank`
(lines 121-129). -/
structure PanelState where
  maxZone : Int
  maxPart : Int
  znDevs : List FlexDevice
  paDevs : List FlexDevice
deriving DecidableEq, Repr

/-- Dict access `self._NX_MAX_DEVICES[qt]`. -/
def nxMaxLookup (s : PanelState) (qt : String) : Option Int :=
  ([("ZN", s.maxZone), ("PA", s.maxPart)]).lookup qt

/-- Dict access `self.deviceBank[qt]`. -/
def bankLookup (s : PanelState) (qt : String) : Option (List FlexDevice) :=
  ([("ZN", s.znDevs), ("PA", s.paDevs)]).lookup qt

/-- Write back `self.deviceBank[qt]` after the in-place mutations. -/
def bankUpdate (s : PanelState) (qt : String) (devs : List FlexDevice) : PanelState :=
  if qt == "ZN" then { s with znDevs := devs }
  else if qt == "PA" then { s with paDevs := devs }
  else s

/-- The device bank built in `__init__` (controller.py lines 121-129):
for each type, `max` fresh `FlexDevice`s appended by the while loop. -/
def initPanel (maxZone maxPart : Int) : PanelState :=
  ⟨maxZone, maxPart,
   List.replicate maxZone.toNat (fdInit ZONE_ELEMENTS),
   List.replicate maxPart.toNat (fdInit PARTITION_ELEMENTS)⟩

/-- Outcome of `_process_event` on one raw line.  `.keyError` marks the
(unreachable for well-formed states) dict misses. -/
inductive ProcResult where
  | ignored
  | nameError
  | hang
  | indexError
  | keyError
  | ok (s : PanelState) (evs : List PEvent)
deriving DecidableEq, Repr

/-- `_process_event(raw_event)` (controller.py lines 148-246): decode,
then — only when `id <= self._NX_MAX_DEVICES[key]` — merge the message
into the bank, collecting the callback invocations in order; an
out-of-range id ignores the message (lines 244-246). `now` is the
timestamp the merged attributes are stamped with. -/
def processEvent (now : Int) (s : PanelState) (line : String) : ProcResult :=
  match decodeNX line.data with
  | .ignored => .ignored
  | .nameError => .nameError
  | .hang => .hang
  | .indexError => .indexError
  | .decoded tag _ id msg =>
    match nxMaxLookup s tag with
    | none => .keyError
    | some mx =>
      if (id : Int) ≤ mx then
        match bankLookup s tag with
        | none => .keyError
        | some devs =>
          match mergeMsg tag (id : Int) now devs [] msg with
          | none => .indexError
          | some (devs', evs) => .ok (bankUpdate s tag devs') evs
      else .ok s []

/-- Outcome of `getStatus`: the returned two-element list, or the
`IndexError` raised by `deviceBank[qt][id-1]`. -/
inductive GetResult where
  | res (v t : PyVal)
  | indexError
  | keyError
deriving DecidableEq, Repr

/-- `getStatus(query_type, id, element)` (controller.py lines 248-279):
returns `['-1','-1']` (two *strings*) when the type is unknown or
`id > max`; otherwise indexes `deviceBank[query_type][id-1]` with Python
indexing and returns `[value, time]`. -/
def getStatus (s : PanelState) (qt : String) (id : Int) (elem : String) : GetResult :=
  match NX_TYPES.lookup qt with
  | none => .res (PyVal.str "-1") (PyVal.str "-1")
  | some _ =>
    match nxMaxLookup s qt, bankLookup s qt with
    | some mx, some devs =>
      if id ≤ mx then
        match pyIndex devs (id - 1) with
        | some dev => .res (fdGet dev elem) (fdGet dev (elem ++ "_time"))
        | none => .indexError
      else .res (PyVal.str "-1") (PyVal.str "-1")
    | _, _ => .keyError

/-- `str(id).zfill(3)` for the nonnegative ids used here. -/
def zfill (w : Nat) (s : String) : String :=
  if w ≤ s.length then s
  else String.mk (List.replicate (w - s.length) '0') ++ s

/-- `_direct_query(query_type, id)` (controller.py lines 282-316):
`some q` is the string put on the command queue, `none` means nothing is
enqueued (unknown type or `id > max`; the unreachable unbound-`query`
crash for a type that is in `_NX_MESSAGE_TYPES` but neither "PA" nor
"ZN" also maps to `none`). -/
def directQuery (maxD : List (String × Int)) (qt : String) (id : Int) : Option String :=
  if (NX_TYPES.lookup qt).isSome then
    match maxD.lookup qt with
    | none => none
    | some mx =>
      if id ≤ mx then
        if qt == "PA" then some ("Q" ++ toString (192 + id))
        else if qt == "ZN" then some ("Q" ++ zfill 3 (toString id))
        else none
      else none
  else none

/-- Everything `__init__` puts on `_command_q` before returning
(controller.py lines 121-133): the while loops enqueue
`_direct_query(device, i+1)` for `i = 0 .. max-1`, first for "ZN" then
for "PA" (dict order), and `_configure_nx587e` then enqueues
`START_UP_OPTIONS`. -/
def initCommands (maxZone maxPart : Int) : List String :=
  ((List.range maxZone.toNat).filterMap
      (fun (i : Nat) => directQuery [("ZN", maxZone), ("PA", maxPart)] "ZN" ((i : Int) + 1)))
    ++ ((List.range maxPart.toNat).filterMap
      (fun (i : Nat) => directQuery [("ZN", maxZone), ("PA", maxPart)] "PA" ((i : Int) + 1)))
    ++ [START_UP_OPTIONS]

/-- Outcome of `panel_command` (controller.py lines 318-381):
`.sent c` means `c` was put on the command queue; `.typeError` is the
`TypeError` raised by `len(in_command == 6)` (line 371, `len` of a
bool); `.nameError` is the `UnboundLocalError` at `if command != ""`
(line 377) when no branch assigned `command`. -/
inductive CmdResult where
  | sent (c : String)
  | notSent
  | typeError
  | nameError
deriving DecidableEq, Repr

/-- `str.isnumeric()` restricted to the ASCII digits that occur here. -/
def pyIsNumeric (s : String) : Bool :=
  s.length != 0 && s.data.all Char.isDigit

/-- The keymap tables of `panel_command` (controller.py lines 345-365). -/
def supportedCommands (keymap : String) : List (String × String) :=
  if keymap == "AUNZ" then
    [("partial", "K"), ("chime", "C"), ("exit", "E"), ("bypass", "B"),
     ("on", "S"), ("fire", "F"), ("medical", "M"), ("hold_up", "H")]
  else
    [("stay", "S"), ("chime", "C"), ("exit", "E"), ("bypass", "B"),
     ("cancel", "K"), ("fire", "F"), ("medical", "M"), ("hold_up", "H")]

/-- `panel_command(in_command)` (controller.py lines 318-381).  The
guard is `in_command.isnumeric() and (len(in_command) == 4 or
len(in_command == 6))`: when the length is 4 the `or` short-circuits;
for any other numeric input `in_command == 6` is `False` and
`len(False)` raises `TypeError`.  A non-numeric input falls through to
the keymap table; when it is absent there, `command` is never assigned
and `if command != ""` raises `UnboundLocalError`. -/
def panelCommand (keymap cmd : String) : CmdResult :=
  if pyIsNumeric cmd then
    if cmd.length == 4 then
      (if cmd != "" then .sent cmd else .notSent)
    else .typeError
  else
    match (supportedCommands keymap).lookup cmd with
    | some c => if c != "" then .sent c else .notSent
    | none => .nameError

/-- The run/stop related state of the controller: `_run_flag`
(controller.py line 112) and whether the serial connection opened in
`_control` (line 453) is still open — controller.py never calls
`serial_conn.close()`. -/
structure ControlState where
  run_flag : Bool
  transport_open : Bool
deriving DecidableEq, Repr

/-- `stop()` (controller.py lines 488-489): its entire body is
`self._run_flag = False`. -/
def stopController (c : ControlState) : ControlState :=
  { c with run_flag := false }

/-- Loop guard of `_serial_writer` (controller.py line 397): `while
True` — it never consults the run flag. -/
def writerLoopGuard (_ : ControlState) : Bool := true

/-- Loop guard of `_serial_reader` (controller.py line 427): `while
True`. -/
def readerLoopGuard (_ : ControlState) : Bool := true

/-- Loop guard of `_event_producer` (controller.py line 440): `while
self._run_flag`. -/
def producerLoopGuard (c : ControlState) : Bool := c.run_flag

/-- Shared state of the three worker threads: the two queues, the
device bank, the chronological callback-invocation trace, whether the
event-producer thread has died of an unhandled exception (or is stuck
in the non-terminating id loop), and the clock used for timestamps. -/
structure SysState where
  commandQ : List String
  rawQ : List String
  panel : PanelState
  log : List PEvent
  dead : Bool
  now : Int
deriving DecidableEq, Repr

/-- Which worker gets scheduled for one atomic step; a reader step
carries the (already stripped) line it read from the transport. -/
inductive Lbl where
  | reader (line : String)
  | writer
  | producer
deriving DecidableEq, Repr

/-- One scheduled step of one worker, from the worker bodies in
controller.py:

* reader (lines 427-437): pushes the non-empty stripped line onto the
  raw-event queue; it touches neither the bank nor the callback;
* writer (lines 397-407): pops one command and writes it to the serial
  port; it touches neither the bank nor the callback;
* producer (lines 439-448): `get_nowait` from the raw queue (`pass` when
  empty), then `_process_event` on the dequeued line.  Only
  `queue.Empty` is caught, so a decode crash kills the thread (`dead`);
  a `.hang` likewise makes the thread incapable of further effects. -/
def sysStep : Lbl → SysState → SysState
  | .reader line, s =>
    if line != "" then { s with rawQ := s.rawQ ++ [line] } else s
  | .writer, s => { s with commandQ := s.commandQ.drop 1 }
  | .producer, s =>
    if s.dead then s
    else
      match s.rawQ with
      | [] => s
      | l :: rest =>
        match processEvent s.now s.panel l with
        | .ok p evs =>
          { s with rawQ := rest, panel := p, log := s.log ++ evs, now := s.now + 1 }
        | .ignored => { s with rawQ := rest, now := s.now + 1 }
        | .nameError => { s with rawQ := rest, dead := true }
        | .hang => { s with rawQ := rest, dead := true }
        | .indexError => { s with rawQ := rest, dead := true }
        | .keyError => { s with rawQ := rest, dead := true }

/-- Sample state used by concrete witnesses: two zones, one partition. -/
def samplePanel : PanelState := initPanel 2 1

/-- Sample shared worker state used by concrete witnesses. -/
def sampleSys : SysState := ⟨[], ["PA1RasCeEpsX"], samplePanel, [], false, 3⟩

/-! ## Helper lemmas -/

theorem find?_cons_eq_of_pos {α : Type} (p : α → Bool) (a : α) (l : List α)
    (h : p a = true) : List.find? p (a :: l) = some a := by
  simp [List.find?, h]

theorem find?_cons_eq_of_neg {α : Type} (p : α → Bool) (a : α) (l : List α)
    (h : p a = false) : List.find? p (a :: l) = List.find? p l := by
  simp [List.find?, h]

theorem takeWhile_all_append (p : Char → Bool) (ds : List Char) (a : Char) (t : List Char)
    (h : ∀ c ∈ ds, p c = true) (ha : p a = false) :
    (ds ++ a :: t).takeWhile p = ds := by
  induction ds with
  | nil => simp [List.takeWhile_cons, ha]
  | cons d ds ih =>
    have hd : p d = true := h d (by simp)
    simp [List.takeWhile_cons, hd, ha, ih (fun c hc => h c (by simp [hc]))]

theorem buildMsg_eq_zip (region : List Char) : ∀ (elems : List String),
    region.length ≤ elems.length →
    buildMsg elems region = some (elems.zip (region.map Char.isUpper)) := by
  induction region with
  | nil => intro elems _; cases elems <;> simp [buildMsg]
  | cons v vs ih =>
    intro elems h
    cases elems with
    | nil => simp at h
    | cons e es =>
      simp only [List.length_cons, Nat.add_le_add_iff_right] at h
      simp [buildMsg, ih es h]

theorem buildMsg_keys (region : List Char) : ∀ (elems : List String) (msg : List (String × Bool)),
    buildMsg elems region = some msg → (msg.map Prod.fst).Sublist elems := by
  induction region with
  | nil =>
    intro elems msg h
    have hmsg : msg = [] := by
      cases elems <;> (simp [buildMsg] at h; exact h)
    subst hmsg
    simp
  | cons v vs ih =>
    intro elems msg h
    cases elems with
    | nil => simp [buildMsg] at h
    | cons e es =>
      simp only [buildMsg] at h
      cases hm : buildMsg es vs with
      | none => rw [hm] at h; cases h
      | some m =>
        rw [hm] at h
        simp only [Option.some.injEq] at h
        subst h
        simpa using List.Sublist.cons₂ e (ih es m hm)

theorem filterMap_congr_some {α β : Type} (f : α → Option β) (g : α → β) :
    ∀ (l : List α), (∀ a ∈ l, f a = some (g a)) → l.filterMap f = l.map g := by
  intro l
  induction l with
  | nil => intro _; rfl
  | cons x xs ih =>
    intro h
    simp [List.filterMap_cons, h x (by simp), ih (fun a ha => h a (by simp [ha]))]

/-! ## Claim theorems -/

/-- C2: the claim says every decode failure — unrecognized tag, malformed
id, out-of-range id — drops the line and the worker continues without
raising.  The code does drop unrecognized tags and out-of-range ids, but
a line with no digit at offset 2 crashes the event-producer worker,
which catches only `queue.Empty`:

* on "ZNxFttbaillbq" the digit run is empty, so the attribute region
  `raw_event[2:12]` is 10 characters against the 9 zone elements and
  `self._NX_MESSAGE_TYPES[...][i]` raises `IndexError` at
  controller.py line 193 — before `id` is ever referenced;
* on the shorter "ZNxFttbail" the 7-character region fits the element
  list, `NXMessage` is built, and the unassigned local `id` then raises
  `UnboundLocalError` at `id <= self._NX_MAX_DEVICES[...]` (line 209).

Either way the worker thread dies instead of continuing.  The last two
conjuncts exercise the two genuinely recovered cases. -/
theorem spec_C2_bug :
    processEvent 0 samplePanel "ZNxFttbaillbq" = ProcResult.indexError ∧
    processEvent 0 samplePanel "ZNxFttbail" = ProcResult.nameError ∧
    processEvent 0 samplePanel "XX1abc" = ProcResult.ignored ∧
    processEvent 0 samplePanel "ZN003Fttbaillbq" = ProcResult.ok samplePanel [] := by
  decide

/-- C3: the claim (and the method's own docstring) says a 4- or 6-digit
numeric string is passed through to the command queue and any other
unsupported input fails with InvalidCommand.  The code's guard
`len(in_command) == 4 or len(in_command == 6)` (controller.py line 371)
evaluates `len(False)` for any numeric input of length ≠ 4, raising
`TypeError`, so "123456" crashes instead of being enqueued; a 4-digit
code does pass through; and an unsupported name leaves `command`
unassigned, raising `UnboundLocalError` at line 377 — no InvalidCommand
error exists anywhere in the code. -/
theorem spec_C3_bug :
    panelCommand "USA" "123456" = CmdResult.typeError ∧
    panelCommand "USA" "1234" = CmdResult.sent "1234" ∧
    panelCommand "USA" "disarm" = CmdResult.nameError := by
  decide

/-- C4 counterexample: with maxZone = 2 (< 9999), the claim says
`getStatus("ZN", 9999, "fault")` fails with an OutOfRange error; the
code instead *returns* the sentinel list `['-1','-1']` (controller.py
lines 266, 274-277) — no error is raised. -/
theorem spec_C4_counterexample :
    getStatus samplePanel "ZN" 9999 "fault" =
      GetResult.res (PyVal.str "-1") (PyVal.str "-1") := by
  decide

/-- C5 counterexample: the claim says after `stop()` all three workers
observe the cleared run flag at their next queue-wait boundary and the
Transport is closed.  After `stopController` the writer and reader loop
guards are still `true` (`while True`, controller.py lines 397 and 427
never consult `_run_flag`) and the transport is still open (`stop()` is
just `self._run_flag = False`; `serial_conn.close()` is never called). -/
theorem spec_C5_counterexample :
    writerLoopGuard (stopController ⟨true, true⟩) = true ∧
    readerLoopGuard (stopController ⟨true, true⟩) = true ∧
    (stopController ⟨true, true⟩).transport_open = true := by
  decide

/-- C5 amended: `stop()` clears the run flag; only the event-processor
worker (`while self._run_flag`) observes it and exits at its next poll;
the writer and reader workers loop unconditionally and never observe the
flag; the transport is left as it was (never closed) and no joins are
performed; a second `stop()` changes nothing (no transition back). -/
theorem spec_C5_amended : ∀ c : ControlState,
    (stopController c).run_flag = false ∧
    producerLoopGuard (stopController c) = false ∧
    writerLoopGuard (stopController c) = true ∧
    readerLoopGuard (stopController c) = true ∧
    (stopController c).transport_open = c.transport_open ∧
    stopController (stopController c) = stopController c := by
  intro c
  exact ⟨rfl, rfl, rfl, rfl, rfl, rfl⟩

/-- C8 counterexample: under the USA keymap, "partial" is neither
numeric nor in the table, so `command` is never assigned and
`panel_command` raises `UnboundLocalError` (controller.py line 377) —
it does not fail with a reported InvalidCommand (no such error exists in
the code). -/
theorem spec_C8_counterexample :
    panelCommand "USA" "partial" = CmdResult.nameError := by
  decide

/-- C8 amended: under AUNZ, "partial" maps to "K" and "on" to "S"; under
USA, "stay" maps to "S" and "cancel" to "K", and "partial" is not a
supported name — but the failure is an unhandled `UnboundLocalError`
escaping to the caller, not a reported InvalidCommand. -/
theorem spec_C8_amended :
    panelCommand "AUNZ" "partial" = CmdResult.sent "K" ∧
    panelCommand "AUNZ" "on" = CmdResult.sent "S" ∧
    panelCommand "USA" "stay" = CmdResult.sent "S" ∧
    panelCommand "USA" "cancel" = CmdResult.sent "K" ∧
    panelCommand "USA" "partial" = CmdResult.nameError := by
  decide

/-- C10 counterexample: with maxZone = 2, the claim says every id down
to -(configured maximum) = -2 passes the range check and returns a
stored pair; the range check does pass (−2 ≤ 2), but
`deviceBank["ZN"][-3]` is out of range for the 2-element list and raises
`IndexError`. -/
theorem spec_C10_counterexample :
    getStatus samplePanel "ZN" (-2) "fault" = GetResult.indexError := by
  decide

/-- C7: during construction exactly one direct query is enqueued for
every configured device id of every type — ids 1..maxZone as
"Q" ++ 3-digit-zero-padded id, then ids 1..maxPartitions as
"Q" ++ (192+id) unpadded — followed by the one-time setup string
"taliPZn"; in particular directQuery(zone,5) = "Q005" and
directQuery(partition,2) = "Q194". -/
theorem spec_C7 :
    (∀ maxZone maxPart : Int,
      initCommands maxZone maxPart =
        ((List.range maxZone.toNat).map
            (fun (i : Nat) => "Q" ++ zfill 3 (toString ((i : Int) + 1))))
          ++ ((List.range maxPart.toNat).map
            (fun (i : Nat) => "Q" ++ toString (192 + ((i : Int) + 1))))
          ++ [START_UP_OPTIONS]) ∧
    directQuery [("ZN", 48), ("PA", 2)] "ZN" 5 = some "Q005" ∧
    directQuery [("ZN", 48), ("PA", 2)] "PA" 2 = some "Q194" := by
  refine ⟨?_, by decide, by decide⟩
  intro maxZone maxPart
  unfold initCommands
  have hZ : ∀ i ∈ List.range maxZone.toNat,
      directQuery [("ZN", maxZone), ("PA", maxPart)] "ZN" ((i : Int) + 1) =
        some ("Q" ++ zfill 3 (toString ((i : Int) + 1))) := by
    intro i hi
    simp only [List.mem_range] at hi
    have hle : (i : Int) + 1 ≤ maxZone := by omega
    simp [directQuery, NX_TYPES, List.lookup, hle]
  have hP : ∀ i ∈ List.range maxPart.toNat,
      directQuery [("ZN", maxZone), ("PA", maxPart)] "PA" ((i : Int) + 1) =
        some ("Q" ++ toString (192 + ((i : Int) + 1))) := by
    intro i hi
    simp only [List.mem_range] at hi
    have hle : (i : Int) + 1 ≤ maxPart := by omega
    simp [directQuery, NX_TYPES, List.lookup, hle]
  rw [filterMap_congr_some _ _ _ hZ, filterMap_congr_some _ _ _ hP]

/-- C4 amended: `getStatus` never raises OutOfRange/UnknownType errors;
for an unknown type or an id above the configured maximum it *returns*
the sentinel list `['-1','-1']`, and for a known type with `id ≤ max`
(and a valid bank index) it returns the stored `[value, time]` pair,
possibly still the unknown `-1` sentinel. -/
theorem spec_C4_amended (s : PanelState) (elem : String) (id : Int) (dev : FlexDevice) :
    (∀ qt : String, NX_TYPES.lookup qt = none →
      getStatus s qt id elem = GetResult.res (PyVal.str "-1") (PyVal.str "-1")) ∧
    (s.maxZone < id →
      getStatus s "ZN" id elem = GetResult.res (PyVal.str "-1") (PyVal.str "-1")) ∧
    (s.maxPart < id →
      getStatus s "PA" id elem = GetResult.res (PyVal.str "-1") (PyVal.str "-1")) ∧
    (id ≤ s.maxZone → pyIndex s.znDevs (id - 1) = some dev →
      getStatus s "ZN" id elem = GetResult.res (fdGet dev elem) (fdGet dev (elem ++ "_time"))) ∧
    (id ≤ s.maxPart → pyIndex s.paDevs (id - 1) = some dev →
      getStatus s "PA" id elem = GetResult.res (fdGet dev elem) (fdGet dev (elem ++ "_time"))) := by
  refine ⟨?_, ?_, ?_, ?_, ?_⟩
  · intro qt h
    simp [getStatus, h]
  · intro h
    have hnot : ¬ id ≤ s.maxZone := by omega
    simp [getStatus, nxMaxLookup, bankLookup, NX_TYPES, List.lookup, hnot]
  · intro h
    have hnot : ¬ id ≤ s.maxPart := by omega
    simp [getStatus, nxMaxLookup, bankLookup, NX_TYPES, List.lookup, hnot]
  · intro h hdev
    simp [getStatus, nxMaxLookup, bankLookup, NX_TYPES, List.lookup, h, hdev]
  · intro h hdev
    simp [getStatus, nxMaxLookup, bankLookup, NX_TYPES, List.lookup, h, hdev]

/-- Witness for C4 amended: on the two-zone sample bank, an unknown type
and an out-of-range id return the `['-1','-1']` sentinel, and a valid
query returns the stored (still unknown) pair. -/
theorem spec_C4_amended_witness :
    getStatus samplePanel "QQ" 1 "fault" = GetResult.res (PyVal.str "-1") (PyVal.str "-1") ∧
    getStatus samplePanel "ZN" 7 "fault" = GetResult.res (PyVal.str "-1") (PyVal.str "-1") ∧
    getStatus samplePanel "ZN" 1 "fault" = GetResult.res (PyVal.int (-1)) (PyVal.int (-1)) := by
  refine ⟨?_, ?_, ?_⟩
  · exact (spec_C4_amended samplePanel "fault" 1 (fdInit ZONE_ELEMENTS)).1 "QQ" (by decide)
  · exact (spec_C4_amended samplePanel "fault" 7 (fdInit ZONE_ELEMENTS)).2.1 (by decide)
  · exact (spec_C4_amended samplePanel "fault" 1 (fdInit ZONE_ELEMENTS)).2.2.2.1
      (by decide) (by decide)

/-- C10 amended: `getStatus` checks only the upper bound of the id, so
every id with `1 - max ≤ id ≤ max` passes and is served through Python
list indexing of `deviceBank[type][id-1]` (negative indexes count from
the end); in particular id = 0 returns the state of the
highest-numbered configured device.  Ids below `1 - max` (including
`-max` itself) still pass the range check but raise `IndexError`. -/
theorem spec_C10_amended (s : PanelState) (elem : String) (id : Int) (dev : FlexDevice) :
    ((s.znDevs.length : Int) = s.maxZone → 1 - s.maxZone ≤ id → id ≤ s.maxZone →
      1 ≤ s.maxZone →
      ∃ dev', pyIndex s.znDevs (id - 1) = some dev' ∧
        getStatus s "ZN" id elem =
          GetResult.res (fdGet dev' elem) (fdGet dev' (elem ++ "_time"))) ∧
    ((s.paDevs.length : Int) = s.maxPart → 1 - s.maxPart ≤ id → id ≤ s.maxPart →
      1 ≤ s.maxPart →
      ∃ dev', pyIndex s.paDevs (id - 1) = some dev' ∧
        getStatus s "PA" id elem =
          GetResult.res (fdGet dev' elem) (fdGet dev' (elem ++ "_time"))) ∧
    ((s.znDevs.length : Int) = s.maxZone → s.znDevs.get? (s.znDevs.length - 1) = some dev →
      getStatus s "ZN" 0 elem = GetResult.res (fdGet dev elem) (fdGet dev (elem ++ "_time"))) ∧
    ((s.paDevs.length : Int) = s.maxPart → s.paDevs.get? (s.paDevs.length - 1) = some dev →
      getStatus s "PA" 0 elem = GetResult.res (fdGet dev elem) (fdGet dev (elem ++ "_time"))) := by
  refine ⟨?_, ?_, ?_, ?_⟩
  · intro hlen hlo hhi _
    have hidx : ∃ dev', pyIndex s.znDevs (id - 1) = some dev' := by
      simp only [pyIndex]
      by_cases hneg : id - 1 < 0
      · have hj : 0 ≤ (s.znDevs.length : Int) + (id - 1) ∧
            (s.znDevs.length : Int) + (id - 1) < (s.znDevs.length : Int) := by omega
        rw [if_pos hneg, if_pos hj]
        have hlt : ((s.znDevs.length : Int) + (id - 1)).toNat < s.znDevs.length := by omega
        exact ⟨_, List.get?_eq_get hlt⟩
      · have hj : 0 ≤ id - 1 ∧ id - 1 < (s.znDevs.length : Int) := by omega
        rw [if_neg hneg, if_pos hj]
        have hlt : (id - 1).toNat < s.znDevs.length := by omega
        exact ⟨_, List.get?_eq_get hlt⟩
    obtain ⟨dev', hdev'⟩ := hidx
    refine ⟨dev', hdev', ?_⟩
    simp [getStatus, nxMaxLookup, bankLookup, NX_TYPES, List.lookup, hhi, hdev']
  · intro hlen hlo hhi _
    have hidx : ∃ dev', pyIndex s.paDevs (id - 1) = some dev' := by
      simp only [pyIndex]
      by_cases hneg : id - 1 < 0
      · have hj : 0 ≤ (s.paDevs.length : Int) + (id - 1) ∧
            (s.paDevs.length : Int) + (id - 1) < (s.paDevs.length : Int) := by omega
        rw [if_pos hneg, if_pos hj]
        have hlt : ((s.paDevs.length : Int) + (id - 1)).toNat < s.paDevs.length := by omega
        exact ⟨_, List.get?_eq_get hlt⟩
      · have hj : 0 ≤ id - 1 ∧ id - 1 < (s.paDevs.length : Int) := by omega
        rw [if_neg hneg, if_pos hj]
        have hlt : (id - 1).toNat < s.paDevs.length := by omega
        exact ⟨_, List.get?_eq_get hlt⟩
    obtain ⟨dev', hdev'⟩ := hidx
    refine ⟨dev', hdev', ?_⟩
    simp [getStatus, nxMaxLookup, bankLookup, NX_TYPES, List.lookup, hhi, hdev']
  · intro hlen hget
    obtain ⟨hlt, -⟩ := List.get?_eq_some.mp hget
    have hdev0 : pyIndex s.znDevs (-1) = some dev := by
      simp only [pyIndex]
      have hneg : (-1 : Int) < 0 := by omega
      have hj : 0 ≤ (s.znDevs.length : Int) + (-1) ∧
          (s.znDevs.length : Int) + (-1) < (s.znDevs.length : Int) := by omega
      rw [if_pos hneg, if_pos hj]
      have hnn : ((s.znDevs.length : Int) + (-1)).toNat = s.znDevs.length - 1 := by omega
      rw [hnn, hget]
    have h0 : (0 : Int) ≤ s.maxZone := by omega
    simp [getStatus, nxMaxLookup, bankLookup, NX_TYPES, List.lookup, h0, hdev0]
  · intro hlen hget
    obtain ⟨hlt, -⟩ := List.get?_eq_some.mp hget
    have hdev0 : pyIndex s.paDevs (-1) = some dev := by
      simp only [pyIndex]
      have hneg : (-1 : Int) < 0 := by omega
      have hj : 0 ≤ (s.paDevs.length : Int) + (-1) ∧
          (s.paDevs.length : Int) + (-1) < (s.paDevs.length : Int) := by omega
      rw [if_pos hneg, if_pos hj]
      have hnn : ((s.paDevs.length : Int) + (-1)).toNat = s.paDevs.length - 1 := by omega
      rw [hnn, hget]
    have h0 : (0 : Int) ≤ s.maxPart := by omega
    simp [getStatus, nxMaxLookup, bankLookup, NX_TYPES, List.lookup, h0, hdev0]

/-- Witness for C10 amended: on the two-zone sample bank, id = -1 wraps
to the first zone and id = 0 returns the highest-numbered zone. -/
theorem spec_C10_amended_witness :
    (∃ dev', pyIndex samplePanel.znDevs ((-1 : Int) - 1) = some dev' ∧
      getStatus samplePanel "ZN" (-1) "fault" =
        GetResult.res (fdGet dev' "fault") (fdGet dev' ("fault" ++ "_time"))) ∧
    getStatus samplePanel "ZN" 0 "fault" =
      GetResult.res (fdGet (fdInit ZONE_ELEMENTS) "fault")
        (fdGet (fdInit ZONE_ELEMENTS) ("fault" ++ "_time")) := by
  refine ⟨?_, ?_⟩
  · exact (spec_C10_amended samplePanel "fault" (-1) (fdInit ZONE_ELEMENTS)).1
      (by decide) (by decide) (by decide) (by decide)
  · exact (spec_C10_amended samplePanel "fault" 0 (fdInit ZONE_ELEMENTS)).2.2.1
      (by decide) (by decide)

/-- Decoding a well-formed status line: recognized two-character tag, a
nonempty digit run, a non-digit attribute region that fits the element
list, and a final terminator character. -/
theorem decodeNX_valid (c1 c2 : Char) (tag : String) (elems : List String)
    (htag : NX_TYPES.find? (fun p => String.mk [c1, c2] == p.1) = some (tag, elems))
    (ds : List Char) (a : Char) (rest : List Char) (term : Char)
    (hne : ds ≠ []) (hall : ∀ c ∈ ds, c.isDigit = true) (ha : a.isDigit = false)
    (hlen : (a :: rest).length ≤ elems.length) :
    decodeNX (c1 :: c2 :: (ds ++ a :: (rest ++ [term]))) =
      DecodeResult.decoded tag elems (natOfDigits ds)
        (elems.zip ((a :: rest).map Char.isUpper)) := by
  have hfind : NX_TYPES.find?
      (fun p => String.mk ((c1 :: c2 :: (ds ++ a :: (rest ++ [term]))).take 2) == p.1) =
      some (tag, elems) := by
    simp only [show (c1 :: c2 :: (ds ++ a :: (rest ++ [term]))).take 2 = [c1, c2] from rfl]
    exact htag
  have hdrop : (c1 :: c2 :: (ds ++ a :: (rest ++ [term]))).drop 2 =
      ds ++ a :: (rest ++ [term]) := rfl
  have htw : (ds ++ a :: (rest ++ [term])).takeWhile Char.isDigit = ds :=
    takeWhile_all_append _ ds a _ hall ha
  have hde : ds.isEmpty = false := by
    cases ds with
    | nil => exact absurd rfl hne
    | cons x xs => rfl
  have hlb : (ds.length == (ds ++ a :: (rest ++ [term])).length) = false := by
    rw [beq_eq_false_iff_ne]
    simp [List.length_append]
  have hregion :
      (((c1 :: c2 :: (ds ++ a :: (rest ++ [term]))).take
          ((c1 :: c2 :: (ds ++ a :: (rest ++ [term]))).length - 1)).drop
        (2 + ds.length)) = a :: rest := by
    have hchars : (c1 :: c2 :: (ds ++ a :: (rest ++ [term]))) =
        (c1 :: c2 :: (ds ++ a :: rest)) ++ [term] := by simp
    rw [hchars]
    have h1 : ((c1 :: c2 :: (ds ++ a :: rest)) ++ [term]).length - 1 =
        (c1 :: c2 :: (ds ++ a :: rest)).length := by simp; omega
    rw [h1, List.take_left]
    have h2 : c1 :: c2 :: (ds ++ a :: rest) = (c1 :: c2 :: ds) ++ (a :: rest) := by simp
    rw [h2, List.drop_left']
    simp
    omega
  unfold decodeNX
  rw [hfind]
  simp only [hdrop, htw, hde, hlb, Bool.false_and, Bool.false_eq_true, if_false, hregion]
  rw [buildMsg_eq_zip (a :: rest) elems hlen]

/-- C6: for every valid status line — recognized tag, in-range id,
attribute characters followed by one terminator — the decoder maps the
characters after the (greedily consumed) id, excluding the final
terminator, positionally onto the declared attribute list, uppercase ⇒
true and any other character ⇒ false, yielding exactly 9 pairs for a
zone line and 8 for a partition line, in declared order. -/
theorem spec_C6 :
    (∀ (ds : List Char) (a : Char) (rest : List Char) (term : Char) (mz : Int),
      ds ≠ [] → (∀ c ∈ ds, c.isDigit = true) → a.isDigit = false →
      (a :: rest).length = 9 → (natOfDigits ds : Int) ≤ mz →
      decodeNX ('Z' :: 'N' :: (ds ++ a :: (rest ++ [term]))) =
        DecodeResult.decoded "ZN" ZONE_ELEMENTS (natOfDigits ds)
          (ZONE_ELEMENTS.zip ((a :: rest).map Char.isUpper)) ∧
      (ZONE_ELEMENTS.zip ((a :: rest).map Char.isUpper)).length = 9 ∧
      (ZONE_ELEMENTS.zip ((a :: rest).map Char.isUpper)).map Prod.fst = ZONE_ELEMENTS) ∧
    (∀ (ds : List Char) (a : Char) (rest : List Char) (term : Char) (mp : Int),
      ds ≠ [] → (∀ c ∈ ds, c.isDigit = true) → a.isDigit = false →
      (a :: rest).length = 8 → (natOfDigits ds : Int) ≤ mp →
      decodeNX ('P' :: 'A' :: (ds ++ a :: (rest ++ [term]))) =
        DecodeResult.decoded "PA" PARTITION_ELEMENTS (natOfDigits ds)
          (PARTITION_ELEMENTS.zip ((a :: rest).map Char.isUpper)) ∧
      (PARTITION_ELEMENTS.zip ((a :: rest).map Char.isUpper)).length = 8 ∧
      (PARTITION_ELEMENTS.zip ((a :: rest).map Char.isUpper)).map Prod.fst =
        PARTITION_ELEMENTS) := by
  constructor
  · intro ds a rest term mz hne hall ha hlen _
    have hr : rest.length = 8 := by simpa using hlen
    refine ⟨decodeNX_valid 'Z' 'N' "ZN" ZONE_ELEMENTS rfl ds a rest term hne hall ha
        (by simp [ZONE_ELEMENTS, hr]), ?_, ?_⟩
    · simp [ZONE_ELEMENTS, hr]
    · have h9 : ((a :: rest).map Char.isUpper).length = 9 := by simp [hr]
      exact List.map_fst_zip ZONE_ELEMENTS ((a :: rest).map Char.isUpper)
        (by rw [h9]; decide)
  · intro ds a rest term mp hne hall ha hlen _
    have hr : rest.length = 7 := by simpa using hlen
    refine ⟨decodeNX_valid 'P' 'A' "PA" PARTITION_ELEMENTS rfl ds a rest term hne hall ha
        (by simp [PARTITION_ELEMENTS, hr]), ?_, ?_⟩
    · simp [PARTITION_ELEMENTS, hr]
    · have h8 : ((a :: rest).map Char.isUpper).length = 8 := by simp [hr]
      exact List.map_fst_zip PARTITION_ELEMENTS ((a :: rest).map Char.isUpper)
        (by rw [h8]; decide)


theorem fdGet_fdSet_self (d : FlexDevice) (k : String) (v : Bool) (now : Int)
    (h : k ∈ d.map Prod.fst) : fdGet (fdSet d k v now) k = PyVal.bool v := by
  induction d with
  | nil => simp at h
  | cons p t ih =>
    simp only [List.map_cons, List.mem_cons] at h
    by_cases hk : p.1 = k
    · have hb : (p.1 == k) = true := beq_iff_eq.mpr hk
      unfold fdSet fdGet
      simp only [List.map_cons]
      rw [if_pos hb]
      have hb' : ((p.1, PyVal.bool v).1 == k) = true := hb
      rw [find?_cons_eq_of_pos (fun q : String × PyVal => q.1 == k) (p.1, PyVal.bool v) _ hb']
    · have hb : (p.1 == k) = false := beq_eq_false_iff_ne.mpr hk
      have hmem : k ∈ t.map Prod.fst := by
        rcases h with h | h
        · exact absurd h.symm hk
        · exact h
      have hskip : fdGet (fdSet (p :: t) k v now) k = fdGet (fdSet t k v now) k := by
        unfold fdSet fdGet
        simp only [List.map_cons]
        rw [find?_cons_eq_of_neg _ _ _ ?hp]
        case hp => split_ifs <;> simp_all
      rw [hskip]
      exact ih hmem

theorem fdGet_fdSet_time (d : FlexDevice) (k : String) (v : Bool) (now : Int)
    (hne : ¬ (k ++ "_time" = k))
    (h : (k ++ "_time") ∈ d.map Prod.fst) :
    fdGet (fdSet d k v now) (k ++ "_time") = PyVal.int now := by
  induction d with
  | nil => simp at h
  | cons p t ih =>
    simp only [List.map_cons, List.mem_cons] at h
    by_cases hk : p.1 = k ++ "_time"
    · have hb1 : (p.1 == k) = false := by
        rw [beq_eq_false_iff_ne, hk]
        exact hne
      have hb2 : (p.1 == k ++ "_time") = true := beq_iff_eq.mpr hk
      unfold fdSet fdGet
      simp only [List.map_cons]
      rw [if_neg ?hc, if_pos hb2]
      case hc => simp [hb1]
      have hb2' : ((p.1, PyVal.int now).1 == k ++ "_time") = true := hb2
      rw [find?_cons_eq_of_pos (fun q : String × PyVal => q.1 == k ++ "_time")
        (p.1, PyVal.int now) _ hb2']
    · have hb : (p.1 == k ++ "_time") = false := beq_eq_false_iff_ne.mpr hk
      have hmem : (k ++ "_time") ∈ t.map Prod.fst := by
        rcases h with h | h
        · exact absurd h.symm hk
        · exact h
      have hskip : fdGet (fdSet (p :: t) k v now) (k ++ "_time") =
          fdGet (fdSet t k v now) (k ++ "_time") := by
        unfold fdSet fdGet
        simp only [List.map_cons]
        rw [find?_cons_eq_of_neg _ _ _ ?hp]
        case hp => split_ifs <;> simp_all
      rw [hskip]
      exact ih hmem


/-- C1: one attribute of one message, applied by `_process_event`'s
merge loop to an in-range device (`stepAttr` is the loop body, reached
only when `id <= max`, controller.py lines 209-243).  Three cases: a
stored `-1` sentinel stores the new value and timestamp and emits no
event (`skip_callback`); a stored known value that differs stores the
new value and timestamp and emits exactly one event carrying the new
value and the updated timestamp; a stored equal value changes nothing
and emits nothing. -/
theorem spec_C1 (devs : List FlexDevice) (dev : FlexDevice) (ety key : String)
    (id now : Int) (v : Bool) (evs : List PEvent)
    (hdev : pyIndex devs (id - 1) = some dev)
    (hk : key ∈ dev.map Prod.fst)
    (ht : (key ++ "_time") ∈ dev.map Prod.fst)
    (hkt : ¬ (key ++ "_time" = key)) :
    (fdGet dev key = PyVal.int (-1) →
      stepAttr ety id now devs evs key v =
        some (pyUpdate devs (id - 1) (fdSet dev key v now), evs) ∧
      fdGet (fdSet dev key v now) key = PyVal.bool v ∧
      fdGet (fdSet dev key v now) (key ++ "_time") = PyVal.int now) ∧
    (∀ b : Bool, fdGet dev key = PyVal.bool b → b ≠ v →
      stepAttr ety id now devs evs key v =
        some (pyUpdate devs (id - 1) (fdSet dev key v now),
          evs ++ [⟨ety, id, key, v, PyVal.int now⟩]) ∧
      fdGet (fdSet dev key v now) key = PyVal.bool v ∧
      fdGet (fdSet dev key v now) (key ++ "_time") = PyVal.int now) ∧
    (fdGet dev key = PyVal.bool v →
      stepAttr ety id now devs evs key v = some (devs, evs)) := by
  refine ⟨?_, ?_, ?_⟩
  · intro hprev
    have hq : pyEq (fdGet dev key) (PyVal.bool v) = false := by
      rw [hprev]; cases v <;> decide
    have hskip : pyEq (fdGet dev key) (PyVal.int (-1)) = true := by
      rw [hprev]; decide
    refine ⟨?_, fdGet_fdSet_self dev key v now hk, fdGet_fdSet_time dev key v now hkt ht⟩
    unfold stepAttr
    rw [hdev]
    simp [hq, hskip]
  · intro b hprev hbv
    have hq : pyEq (fdGet dev key) (PyVal.bool v) = false := by
      rw [hprev]
      cases b <;> cases v <;> first | decide | exact absurd rfl hbv
    have hskip : pyEq (fdGet dev key) (PyVal.int (-1)) = false := by
      rw [hprev]; cases b <;> decide
    refine ⟨?_, fdGet_fdSet_self dev key v now hk, fdGet_fdSet_time dev key v now hkt ht⟩
    unfold stepAttr
    rw [hdev]
    simp [hq, hskip, fdGet_fdSet_time dev key v now hkt ht]
  · intro hprev
    have hq : pyEq (fdGet dev key) (PyVal.bool v) = true := by
      rw [hprev]; cases v <;> decide
    unfold stepAttr
    rw [hdev]
    simp [hq]

/-- Witness for C1: priming a fresh zone device stores value and
timestamp without an event; flipping a known value emits exactly one
event with the new value and timestamp. -/
theorem spec_C1_witness :
    (stepAttr "ZN" 1 7 [fdInit ZONE_ELEMENTS] [] "fault" true =
      some (pyUpdate [fdInit ZONE_ELEMENTS] ((1 : Int) - 1)
        (fdSet (fdInit ZONE_ELEMENTS) "fault" true 7), []) ∧
     fdGet (fdSet (fdInit ZONE_ELEMENTS) "fault" true 7) "fault" = PyVal.bool true ∧
     fdGet (fdSet (fdInit ZONE_ELEMENTS) "fault" true 7) ("fault" ++ "_time") =
       PyVal.int 7) ∧
    stepAttr "ZN" 1 9 [fdSet (fdInit ZONE_ELEMENTS) "fault" false 7] [] "fault" true =
      some (pyUpdate [fdSet (fdInit ZONE_ELEMENTS) "fault" false 7] ((1 : Int) - 1)
        (fdSet (fdSet (fdInit ZONE_ELEMENTS) "fault" false 7) "fault" true 9),
        [⟨"ZN", 1, "fault", true, PyVal.int 9⟩]) := by
  constructor
  · exact (spec_C1 [fdInit ZONE_ELEMENTS] (fdInit ZONE_ELEMENTS) "ZN" "fault" 1 7 true []
      (by decide) (by decide) (by decide) (by decide)).1 (by decide)
  · exact ((spec_C1 [fdSet (fdInit ZONE_ELEMENTS) "fault" false 7]
      (fdSet (fdInit ZONE_ELEMENTS) "fault" false 7) "ZN" "fault" 1 9 true []
      (by decide) (by decide) (by decide) (by decide)).2.1 false (by decide)
      (by decide)).1


theorem stepAttr_evs {ety : String} {id now : Int} {devs : List FlexDevice}
    {evs : List PEvent} {k : String} {v : Bool} {d1 : List FlexDevice} {e1 : List PEvent}
    (h : stepAttr ety id now devs evs k v = some (d1, e1)) :
    e1 = evs ∨ ∃ ev : PEvent, e1 = evs ++ [ev] ∧ ev.tag = k := by
  unfold stepAttr at h
  split at h
  next => cases h
  next dev hx =>
    split at h
    next hq =>
      simp only [Option.some.injEq, Prod.mk.injEq] at h
      exact Or.inl h.2.symm
    next hq =>
      by_cases hs : pyEq (fdGet dev k) (PyVal.int (-1)) = true
      · simp only [hs, if_true, Option.some.injEq, Prod.mk.injEq] at h
        exact Or.inl h.2.symm
      · simp only [hs, if_false, Option.some.injEq, Prod.mk.injEq] at h
        exact Or.inr ⟨⟨ety, id, k, v, fdGet (fdSet dev k v now) (k ++ "_time")⟩,
          h.2.symm, rfl⟩

theorem mergeMsg_evs {ety : String} {id now : Int} :
    ∀ (msg : List (String × Bool)) (devs : List FlexDevice) (evs : List PEvent)
      (d' : List FlexDevice) (e' : List PEvent),
      mergeMsg ety id now devs evs msg = some (d', e') →
      ∃ out, e' = evs ++ out ∧ (out.map PEvent.tag).Sublist (msg.map Prod.fst) := by
  intro msg
  induction msg with
  | nil =>
    intro devs evs d' e' h
    simp only [mergeMsg, Option.some.injEq, Prod.mk.injEq] at h
    exact ⟨[], by simp [h.2.symm], by simp⟩
  | cons kv rest ih =>
    intro devs evs d' e' h
    obtain ⟨k, v⟩ := kv
    simp only [mergeMsg] at h
    cases hs : stepAttr ety id now devs evs k v with
    | none => rw [hs] at h; cases h
    | some de =>
      obtain ⟨dd, ee⟩ := de
      rw [hs] at h
      obtain ⟨out1, ho1, hs1⟩ := ih dd ee d' e' h
      rcases stepAttr_evs hs with he | ⟨ev, hee, htag⟩
      · refine ⟨out1, by rw [ho1, he], ?_⟩
        simpa using hs1.cons _
      · refine ⟨ev :: out1, ?_, ?_⟩
        · rw [ho1, hee]
          simp
        · simp only [List.map_cons, htag]
          exact hs1.cons₂ _

theorem decodeNX_decoded {chars : List Char} {tag : String} {elems : List String}
    {idN : Nat} {msg : List (String × Bool)}
    (h : decodeNX chars = DecodeResult.decoded tag elems idN msg) :
    ((tag, elems) ∈ NX_TYPES) ∧ ∃ region, buildMsg elems region = some msg := by
  unfold decodeNX at h
  split at h
  next => cases h
  next pr t es hf =>
    split at h
    next => cases h
    next =>
      split at h
      next => cases h
      next m hb =>
        split at h
        next => cases h
        next =>
          cases h
          exact ⟨List.mem_of_find?_eq_some hf, _, hb⟩

theorem processEvent_ok_tags {now : Int} {s : PanelState} {line : String}
    {s' : PanelState} {evs : List PEvent}
    (h : processEvent now s line = ProcResult.ok s' evs) :
    ∃ elems, (elems = ZONE_ELEMENTS ∨ elems = PARTITION_ELEMENTS) ∧
      (evs.map PEvent.tag).Sublist elems := by
  unfold processEvent at h
  split at h
  · cases h
  · cases h
  · cases h
  · cases h
  next tag elems idN msg hd =>
    obtain ⟨hmem, region, hbm⟩ := decodeNX_decoded hd
    have helems : elems = ZONE_ELEMENTS ∨ elems = PARTITION_ELEMENTS := by
      simp only [NX_TYPES, List.mem_cons, List.mem_singleton, List.not_mem_nil] at hmem
      rcases hmem with hmem | hmem | hmem
      · exact Or.inl (congrArg Prod.snd hmem)
      · exact Or.inr (congrArg Prod.snd hmem)
      · cases hmem
    split at h
    · cases h
    next mx hmx =>
      split at h
      · -- id in range
        split at h
        · cases h
        next devs hbank =>
          split at h
          · cases h
          next devs2 evs2 hmerge =>
            injection h with h1 h2
            obtain ⟨out, hout, hsub⟩ := mergeMsg_evs msg devs [] devs2 evs2 hmerge
            refine ⟨elems, helems, ?_⟩
            rw [← h2, hout]
            simp only [List.nil_append]
            exact hsub.trans (buildMsg_keys region elems msg hbm)
      · -- id out of range: ok s []
        injection h with h1 h2
        refine ⟨ZONE_ELEMENTS, Or.inl rfl, ?_⟩
        rw [← h2]
        simp

/-- C9: in the interleaving model of the three workers, only a step of
the event-processor worker can change the device bank or extend the
callback trace; a producer step dequeues exactly the head line of the
raw-event queue (FIFO: source-line arrival order) and appends that
line's events, as one block, to the callback trace; and the tags of the
events of one message form a subsequence of that type's declared
attribute list — within one message, callbacks fire in
attribute-declaration order. -/
theorem spec_C9 :
    (∀ (lbl : Lbl) (s : SysState), lbl ≠ Lbl.producer →
      (sysStep lbl s).panel = s.panel ∧ (sysStep lbl s).log = s.log) ∧
    (∀ (s : SysState) (l : String) (rest : List String),
      s.dead = false → s.rawQ = l :: rest →
      (sysStep Lbl.producer s).rawQ = rest ∧
      ∃ evs, (sysStep Lbl.producer s).log = s.log ++ evs ∧
        ∃ elems, (elems = ZONE_ELEMENTS ∨ elems = PARTITION_ELEMENTS) ∧
          (evs.map PEvent.tag).Sublist elems) := by
  constructor
  · intro lbl s hn
    cases lbl with
    | reader line =>
      by_cases hl : (line != "") = true <;> simp [sysStep, hl]
    | writer => simp [sysStep]
    | producer => exact absurd rfl hn
  · intro s l rest hdead hq
    have hstep : sysStep Lbl.producer s =
        match processEvent s.now s.panel l with
        | .ok p evs =>
          { s with rawQ := rest, panel := p, log := s.log ++ evs, now := s.now + 1 }
        | .ignored => { s with rawQ := rest, now := s.now + 1 }
        | .nameError => { s with rawQ := rest, dead := true }
        | .hang => { s with rawQ := rest, dead := true }
        | .indexError => { s with rawQ := rest, dead := true }
        | .keyError => { s with rawQ := rest, dead := true } := by
      simp [sysStep, hdead, hq]
    cases hp : processEvent s.now s.panel l with
    | ok p evs2 =>
      rw [hstep, hp]
      refine ⟨rfl, evs2, rfl, ?_⟩
      exact processEvent_ok_tags hp
    | ignored =>
      rw [hstep, hp]
      exact ⟨rfl, [], by simp, ZONE_ELEMENTS, Or.inl rfl, by simp⟩
    | nameError =>
      rw [hstep, hp]
      exact ⟨rfl, [], by simp, ZONE_ELEMENTS, Or.inl rfl, by simp⟩
    | hang =>
      rw [hstep, hp]
      exact ⟨rfl, [], by simp, ZONE_ELEMENTS, Or.inl rfl, by simp⟩
    | indexError =>
      rw [hstep, hp]
      exact ⟨rfl, [], by simp, ZONE_ELEMENTS, Or.inl rfl, by simp⟩
    | keyError =>
      rw [hstep, hp]
      exact ⟨rfl, [], by simp, ZONE_ELEMENTS, Or.inl rfl, by simp⟩

/-- Witness for C9: a writer step on the sample state leaves bank and
callback trace untouched; a producer step dequeues the one queued
partition line and appends its (here: priming, hence empty) event block
in declaration order. -/
theorem spec_C9_witness :
    ((sysStep Lbl.writer sampleSys).panel = sampleSys.panel ∧
     (sysStep Lbl.writer sampleSys).log = sampleSys.log) ∧
    ((sysStep Lbl.producer sampleSys).rawQ = [] ∧
     ∃ evs, (sysStep Lbl.producer sampleSys).log = sampleSys.log ++ evs ∧
       ∃ elems, (elems = ZONE_ELEMENTS ∨ elems = PARTITION_ELEMENTS) ∧
         (evs.map PEvent.tag).Sublist elems) := by
  exact ⟨spec_C9.1 Lbl.writer sampleSys (by decide),
    spec_C9.2 sampleSys "PA1RasCeEpsX" [] rfl rfl⟩

/-- Witness for C6: the zone line "ZN001Fttbaillbq" (id 001, nine
attribute characters, terminator q) decodes to the nine declared zone
attributes in order, fault true and the rest false. -/
theorem spec_C6_witness :
    decodeNX ('Z' :: 'N' :: (['0', '0', '1'] ++ 'F' :: ("ttbaillb".data ++ ['q']))) =
      DecodeResult.decoded "ZN" ZONE_ELEMENTS (natOfDigits ['0', '0', '1'])
        (ZONE_ELEMENTS.zip (('F' :: "ttbaillb".data).map Char.isUpper)) ∧
    (ZONE_ELEMENTS.zip (('F' :: "ttbaillb".data).map Char.isUpper)).length = 9 := by
  have h := spec_C6.1 ['0', '0', '1'] 'F' "ttbaillb".data 'q' 1 (by decide) (by decide)
    (by decide) (by decide) (by decide)
  exact ⟨h.1, h.2.1⟩
